import Mathlib

/-!
Verification of the chat-bubble content classification and rendering
pipeline of the FlowiseChatEmbed bubble components
(`src/components/bubbles/BotBubble.tsx` and
`src/components/bubbles/AgentReasoningBubble.tsx`).

Strings are modelled as `List Char`.  JavaScript string operations used by
the source (`includes`, `startsWith`, `replace` with a string needle
(first occurrence), `replace` with a global regex (all occurrences),
`lastIndexOf`, `slice`, `trim`) are embedded as executable list functions
below.
-/

namespace FlowiseEmbed

/-- JS `String.prototype.includes`: substring test, embedded over lists. -/
def containsB (p : List Char) : List Char → Bool
  | [] => p.isEmpty
  | c :: t => p.isPrefixOf (c :: t) || containsB p t

/-- JS `String.prototype.trim`: drop leading and trailing whitespace. -/
def trimList (s : List Char) : List Char :=
  ((s.dropWhile Char.isWhitespace).reverse.dropWhile Char.isWhitespace).reverse

/-- Index of the first occurrence of `p` in `s` (JS `String.prototype.indexOf`,
as an `Option`). -/
def firstIdx (p : List Char) : List Char → Option Nat
  | [] => if p.isPrefixOf ([] : List Char) then some 0 else none
  | c :: t => if p.isPrefixOf (c :: t) then some 0 else (firstIdx p t).map (· + 1)

/-- Index of the last occurrence of `p` in `s` (JS `String.prototype.lastIndexOf`,
as an `Option`). -/
def lastIdx (p : List Char) : List Char → Option Nat
  | [] => none
  | c :: t =>
    match lastIdx p t with
    | some i => some (i + 1)
    | none => if p.isPrefixOf (c :: t) then some 0 else none

/-- JS `String.prototype.replace` with a plain-string needle: replaces only
the first occurrence, leaves the string unchanged when there is none. -/
def replaceFirst (p r : List Char) : List Char → List Char
  | [] => []
  | c :: t =>
    if p.isPrefixOf (c :: t) then r ++ (c :: t).drop p.length
    else c :: replaceFirst p r t

/-- JS `String.prototype.replace` with a global regex on a literal pattern:
replaces every occurrence, scanning left to right, non-overlapping. -/
def replaceAll (p r : List Char) : List Char → List Char
  | [] => []
  | c :: t =>
    if p ≠ [] ∧ p.isPrefixOf (c :: t) = true then
      r ++ replaceAll p r (t.drop (p.length - 1))
    else c :: replaceAll p r t
termination_by s => s.length
decreasing_by
  · simp only [List.length_cons, List.length_drop]
    omega
  · simp only [List.length_cons]
    omega

/-! ### Classification predicates, embedded from `BotBubble.tsx` lines 64-84
(the identical copies in `AgentReasoningBubble.tsx` lines 27-47 are the same
functions). -/

def doctypeTag : List Char := "<!DOCTYPE".toList
def htmlOpenTag : List Char := "<html".toList
def bodyCloseTag : List Char := "</body>".toList
def htmlCloseTag : List Char := "</html>".toList
def scriptOpenTag : List Char := "<script".toList
def canvasOpenTag : List Char := "<canvas".toList
def chartJsLowerMarker : List Char := "chart.js".toList
def chartJsUpperMarker : List Char := "Chart.js".toList
def d3Marker : List Char := "d3.js".toList
def plotlyMarker : List Char := "plotly".toList

/-- The regex test `/^\s*<html[\s>]/i.test(trimmed)`: after optional leading
whitespace, a case-insensitive `<html` followed by whitespace or `>`. -/
def htmlTagRegexTest (s : List Char) : Bool :=
  let t := s.dropWhile Char.isWhitespace
  ((t.take 5).map Char.toLower == htmlOpenTag) &&
    (match t.drop 5 with
     | d :: _ => d.isWhitespace || d == '>'
     | [] => false)

/-- `isFullHTMLDocument` (BotBubble.tsx lines 64-67): the trimmed content
starts with `<!DOCTYPE`, starts with `<html`, or matches `/^\s*<html[\s>]/i`. -/
def isFullHTMLDocument (content : List Char) : Bool :=
  let trimmed := trimList content
  doctypeTag.isPrefixOf trimmed || htmlOpenTag.isPrefixOf trimmed || htmlTagRegexTest trimmed

/-- `isCompleteHTMLDocument` (BotBubble.tsx lines 69-74): has both `</body>`
and `</html>`. -/
def isCompleteHTMLDocument (content : List Char) : Bool :=
  containsB bodyCloseTag content && containsB htmlCloseTag content

/-- `needsIframeRendering` (BotBubble.tsx lines 76-84): has `<script`,
`<canvas`, a Chart.js marker, or a d3/plotly marker. -/
def needsIframeRendering (content : List Char) : Bool :=
  containsB scriptOpenTag content || containsB canvasOpenTag content ||
  (containsB chartJsLowerMarker content || containsB chartJsUpperMarker content) ||
  (containsB d3Marker content || containsB plotlyMarker content)

/-- The four-way content classification of spec section 3, derived from the
`if`/`else if` chain of `setBotMessageRef` (BotBubble.tsx lines 112, 278-283,
306). -/
inductive Classification where
  | PlainMarkdown
  | CompleteSimpleHTML
  | CompleteRichHTML
  | IncompleteHTML
deriving DecidableEq

/-- The classification computed by the renderer: the branch conditions of
`setBotMessageRef` (BotBubble.tsx lines 112, 278-283, 306, 313), in source
order. -/
def classify (renderHTML : Bool) (content : List Char) : Classification :=
  if (renderHTML && isFullHTMLDocument content && isCompleteHTMLDocument content &&
      needsIframeRendering content) = true then
    Classification.CompleteRichHTML
  else if (renderHTML && isFullHTMLDocument content && isCompleteHTMLDocument content &&
      !needsIframeRendering content) = true then
    Classification.CompleteSimpleHTML
  else if (renderHTML && isFullHTMLDocument content && !isCompleteHTMLDocument content) = true then
    Classification.IncompleteHTML
  else
    Classification.PlainMarkdown

/-! ### The rich-HTML (iframe) injection pipeline, embedded from
`BotBubble.tsx` lines 206-266 (identical in `AgentReasoningBubble.tsx`
lines 168-228). -/

def headCloseTag : List Char := "</head>".toList
def styleCloseTag : List Char := "</style>".toList
def headOpenTag : List Char := "<head>".toList
def googleMapKeyToken : List Char := "GOOGLE_MAP_KEY".toList
def mapKeyLiteral : List Char := "abc".toList

/-- The `cssOverride` template literal of `BotBubble.tsx` lines 210-243
(byte-identical in both components). -/
def cssOverride : List Char :=
  "\n              <style id=\"flowise-iframe-override\">\n                * \x7b box-sizing: border-box !important; \x7d\n                html \x7b \n                  overflow: hidden !important; \n                  margin: 0 !important;\n                  padding: 0 !important;\n                \x7d\n                body \x7b \n                  margin: 0 !important; \n                  padding: 15px !important; \n                  overflow: hidden !important;\n                  box-sizing: border-box !important;\n                \x7d\n                .chart-container,\n                div[class*=\"chart\"],\n                div[class*=\"container\"] \x7b \n                  width: 100% !important; \n                  max-width: 100% !important;\n                  margin-left: 0 !important;\n                  margin-right: 0 !important;\n                  padding: 0 5% !important;\n                \x7d\n                canvas \x7b\n                  max-width: 100% !important;\n                  width: 100% !important;\n                \x7d\n                h1 \x7b\n                  margin-top: 10px !important;\n                  text-align: center !important;\n                  font-size: 1.5em !important;\n                \x7d\n              </style>\n            ".toList

/-- The CSS-insertion step of `setBotMessageRef` (BotBubble.tsx lines
245-257): insert `cssOverride` before the first `</head>`, else after the
last `</style>`, else after the first `<head>`, else prepend. -/
def injectCssOverride (content : List Char) : List Char :=
  if containsB headCloseTag content = true then
    replaceFirst headCloseTag (cssOverride ++ headCloseTag) content
  else if containsB styleCloseTag content = true then
    match lastIdx styleCloseTag content with
    | some i => content.take (i + 8) ++ cssOverride ++ content.drop (i + 8)
    | none => content
  else if containsB headOpenTag content = true then
    replaceFirst headOpenTag (headOpenTag ++ cssOverride) content
  else
    cssOverride ++ content

/-- The full document string written into the iframe (BotBubble.tsx lines
245-266): CSS insertion followed by the global `GOOGLE_MAP_KEY` -> `abc`
replacement guarded by an `includes` check. -/
def iframeFinalDocument (content : List Char) : List Char :=
  let modified := injectCssOverride content
  if containsB googleMapKeyToken modified = true then
    replaceAll googleMapKeyToken mapKeyLiteral modified
  else
    modified

/-! ### Text extraction for incomplete HTML.

`extractTextFromIncompleteHTML` (BotBubble.tsx lines 86-104) calls
`DOMParser().parseFromString(content, 'text/html')` and reads
`doc.body.textContent`.  `DOMParser` is a browser API, not part of this
repository; it is modelled below. -/

/-- A character can begin a markup tag after `<` (HTML tokenizer: an ASCII
letter opens a start tag, `/` an end tag, `!` a declaration, `?` a bogus
comment); any other character after `<` leaves the `<` as literal text. -/
def tagStartChar (c : Char) : Bool :=
  c.isAlpha || c == '/' || c == '!' || c == '?'

/-- Whether the list begins with a character that can open a tag. -/
def tagFollows : List Char → Bool
  | [] => false
  | d :: _ => tagStartChar d

/-- Tag-stripping scan; the Boolean state records whether the scan is
inside a tag (consuming up to the closing `>`). -/
def domTextScan : Bool → List Char → List Char
  | _, [] => []
  | true, c :: t => if c == '>' then domTextScan false t else domTextScan true t
  | false, c :: t =>
    if c == '<' && tagFollows t then domTextScan true t
    else c :: domTextScan false t

/-- Modelled from the spec: "Best-effort parse the partial markup to extract
visible text content" — the DOM text content
(`DOMParser().parseFromString(content, 'text/html').body.textContent`) of a
(possibly incomplete) HTML string, modelled as HTML-tokenizer tag
stripping: a `<` followed by a tag-starting character opens a tag consumed
through the next `>`; every other character (including a stray `<`) is
literal text.  Character-entity decoding is not modelled. -/
def domTextContent (s : List Char) : List Char := domTextScan false s

def loadingGlyphSuffix : List Char := " ⏳".toList
def loadingPlaceholder : List Char := "Loading content... ⏳".toList

/-- `extractTextFromIncompleteHTML` (BotBubble.tsx lines 86-104): extract
the DOM text, trim it, and either append the loading glyph or show the
generic loading message. -/
def extractTextFromIncompleteHTML (content : List Char) : List Char :=
  let bodyText := domTextContent content
  if 0 < (trimList bodyText).length then trimList bodyText ++ loadingGlyphSuffix
  else loadingPlaceholder

/-! ### The simple-HTML path.

The simple branch (BotBubble.tsx lines 284-302) parses the content with
`DOMParser` and injects `doc.body?.innerHTML || messageContent`.  The
parsed document is modelled by its body inner HTML. -/

def bodyOpenTagStart : List Char := "<body".toList

/-- Modelled from the spec: "parse the string as a document, extract only
the body subtree" — the `innerHTML` of the parsed document's body, when a
`<body` tag is present: the text between the end of the first `<body ...>`
open tag and the last `</body>` close tag (to the end of the string when
the close tag is absent). -/
def bodyInnerHTML (s : List Char) : Option (List Char) :=
  match firstIdx bodyOpenTagStart s with
  | none => none
  | some i =>
    let afterOpen := s.drop i
    match firstIdx ['>'] afterOpen with
    | none => none
    | some j =>
      let inner := afterOpen.drop (j + 1)
      match lastIdx bodyCloseTag inner with
      | none => some inner
      | some k => some (inner.take k)

/-- The parsed document, modelled by the body data the simple branch
reads (`doc.body?.innerHTML`; `bodyInner = none` models an absent body). -/
structure HTMLDoc where
  bodyInner : Option (List Char)
deriving DecidableEq

def parseHTMLDoc (s : List Char) : HTMLDoc := ⟨bodyInnerHTML s⟩

/-- `const bodyContent = doc.body?.innerHTML || messageContent`
(BotBubble.tsx line 288): the original content stands in when the body is
absent or its inner HTML is the empty string (JS `||` on a falsy string). -/
def chooseBodyContent (doc : HTMLDoc) (content : List Char) : List Char :=
  match doc.bodyInner with
  | some inner => if inner.isEmpty then content else inner
  | none => content

/-- The `try`/`catch` of the simple branch (BotBubble.tsx lines 285-302):
on a successful parse inject the chosen body content; on a parse failure
fall back to `Marked.parse(messageContent)` and log a warning.  The Boolean
in the result records whether the warning was logged.  `md` is the external
`Marked.parse` markdown renderer. -/
def simpleHTMLRender (md : List Char → List Char) (content : List Char) :
    Except Unit HTMLDoc → List Char × Bool
  | Except.ok doc => (chooseBodyContent doc content, false)
  | Except.error _ => (md content, true)

/-- The mutation performed on the bound output surface, one constructor per
rendering strategy of `setBotMessageRef`. -/
inductive RenderResult where
  | iframeDoc (doc : List Char)
  | injectHTML (html : List Char) (warned : Bool)
  | textOnly (visible : List Char)
  | markdownHTML (html : List Char)
deriving DecidableEq

/-- `setBotMessageRef` (BotBubble.tsx lines 106-344), restricted to the
content-rendering branch chain: the four-way dispatch on the message
content.  `md` is the external `Marked.parse`. -/
def setBotMessageRef (renderHTML : Bool) (md : List Char → List Char)
    (content : List Char) : RenderResult :=
  if (renderHTML && isFullHTMLDocument content && isCompleteHTMLDocument content &&
      needsIframeRendering content) = true then
    RenderResult.iframeDoc (iframeFinalDocument content)
  else if (renderHTML && isFullHTMLDocument content && isCompleteHTMLDocument content &&
      !needsIframeRendering content) = true then
    let rendered := simpleHTMLRender md content (Except.ok (parseHTMLDoc content))
    RenderResult.injectHTML rendered.1 rendered.2
  else if (renderHTML && isFullHTMLDocument content && !isCompleteHTMLDocument content) = true then
    RenderResult.textOnly (extractTextFromIncompleteHTML content)
  else
    RenderResult.markdownHTML (md content)

/-! ### Image artifact URL rewriting. -/

def fileStorageMarker : List Char := "FILE-STORAGE::".toList
def uploadPathSeg : List Char := "/api/v1/get-upload-file?chatflowId=".toList
def chatIdSeg : List Char := "&chatId=".toList
def fileNameSeg : List Char := "&fileName=".toList

/-- The `src` computed for a png/jpeg artifact in `renderArtifacts`
(BotBubble.tsx lines 568-582): data starting with `FILE-STORAGE::` becomes
a download URL with the marker stripped; other data is used as-is. -/
def botBubbleImageSrc (apiHost chatflowid chatId imgData : List Char) : List Char :=
  if fileStorageMarker.isPrefixOf imgData then
    apiHost ++ uploadPathSeg ++ chatflowid ++ chatIdSeg ++ chatId ++ fileNameSeg ++
      replaceFirst fileStorageMarker [] imgData
  else
    imgData

/-- The `data` rewriting for a png/jpeg artifact in
`agentReasoningArtifacts` (AgentReasoningBubble.tsx lines 272-285): every
image artifact is rewritten into the download URL, unconditionally. -/
def agentReasoningImageData (apiHost chatflowid chatId imgData : List Char) : List Char :=
  apiHost ++ uploadPathSeg ++ chatflowid ++ chatIdSeg ++ chatId ++ fileNameSeg ++
    replaceFirst fileStorageMarker [] imgData

/-! ### Feedback rating state machine (`BotBubble.tsx` lines 445-503). -/

def thumbsUpRating : List Char := "THUMBS_UP".toList
def thumbsDownRating : List Char := "THUMBS_DOWN".toList

/-- The view state touched by the thumbs handlers: the `rating`,
`feedbackId`, `showFeedbackContentDialog`, `thumbsUpColor` and
`thumbsDownColor` signals. -/
structure FeedbackState where
  rating : List Char
  feedbackId : List Char
  showDialog : Bool
  thumbsUpColor : List Char
  thumbsDownColor : List Char
deriving DecidableEq

/-- A click event: which button, whether `sendFeedbackQuery` returned
truthy `result.data`, and the id extracted from it (empty when absent). -/
inductive FeedbackEvent where
  | thumbsUp (success : Bool) (respId : List Char)
  | thumbsDown (success : Bool) (respId : List Char)
deriving DecidableEq

/-- `onThumbsUpClick` (BotBubble.tsx lines 445-473): a no-op unless the
rating is still empty; on a successful request, set the rating, feedback
id, dialog flag and button colour. -/
def onThumbsUpClick (s : FeedbackState) (success : Bool) (respId : List Char) :
    FeedbackState :=
  if s.rating.isEmpty then
    if success then
      { s with rating := thumbsUpRating, feedbackId := respId, showDialog := true,
               thumbsUpColor := "#006400".toList }
    else s
  else s

/-- `onThumbsDownClick` (BotBubble.tsx lines 475-503): symmetric to
`onThumbsUpClick`. -/
def onThumbsDownClick (s : FeedbackState) (success : Bool) (respId : List Char) :
    FeedbackState :=
  if s.rating.isEmpty then
    if success then
      { s with rating := thumbsDownRating, feedbackId := respId, showDialog := true,
               thumbsDownColor := "#8B0000".toList }
    else s
  else s

/-- One step of the feedback state machine. -/
def feedbackStep (s : FeedbackState) : FeedbackEvent → FeedbackState
  | FeedbackEvent.thumbsUp ok id => onThumbsUpClick s ok id
  | FeedbackEvent.thumbsDown ok id => onThumbsDownClick s ok id

/-! ### Lemmas about the string model. -/

theorem containsB_iff (p s : List Char) : containsB p s = true ↔ p <:+: s := by
  induction s with
  | nil => simp [containsB, List.isEmpty_iff, List.infix_nil]
  | cons c t ih =>
    simp [containsB, Bool.or_eq_true, List.isPrefixOf_iff_prefix, ih,
      List.infix_cons_iff]

theorem infix_cons_elim {p : List Char} {c : Char} {t : List Char}
    (hp : p ≠ []) (hc : c ∉ p) (h : p <:+: c :: t) : p <:+: t := by
  obtain ⟨u, v, huv⟩ := h
  cases u with
  | nil =>
    obtain ⟨ph, pt, rfl⟩ := List.exists_cons_of_ne_nil hp
    simp only [List.nil_append, List.cons_append, List.cons.injEq] at huv
    exact absurd (huv.1 ▸ List.mem_cons_self ph pt) hc
  | cons d u =>
    simp only [List.cons_append, List.cons.injEq] at huv
    exact ⟨u, v, huv.2⟩

theorem infix_append_left_elim {p : List Char} (hp : p ≠ []) :
    ∀ (a b : List Char), (∀ c ∈ a, c ∉ p) → p <:+: a ++ b → p <:+: b := by
  intro a
  induction a with
  | nil => intro b _ h; simpa using h
  | cons c a ih =>
    intro b hnot h
    have h1 : p <:+: a ++ b :=
      infix_cons_elim hp (hnot c (List.mem_cons_self c a)) (by simpa using h)
    exact ih b (fun x hx => hnot x (List.mem_cons_of_mem c hx)) h1

theorem replaceAll_nil (p r : List Char) : replaceAll p r [] = [] := by
  rw [replaceAll]

theorem replaceAll_cons (p r : List Char) (c : Char) (t : List Char) :
    replaceAll p r (c :: t) =
      if p ≠ [] ∧ p.isPrefixOf (c :: t) = true then
        r ++ replaceAll p r (t.drop (p.length - 1))
      else c :: replaceAll p r t := by
  rw [replaceAll]

/-- After a global replacement the pattern does not reappear as a prefix,
provided it was not a prefix before: auxiliary step, stated for any
non-empty fragment `q` drawn from the pattern's characters. -/
theorem replaceAll_no_new_prefix (p r : List Char) (hr : r ≠ [])
    (hd : ∀ c ∈ r, c ∉ p) :
    ∀ t q, q ≠ [] → (∀ a ∈ q, a ∈ p) → ¬ q <+: t → ¬ q <+: replaceAll p r t := by
  intro t
  induction t with
  | nil =>
    intro q hq _ _ hcon
    rw [replaceAll_nil] at hcon
    exact hq (List.prefix_nil.mp hcon)
  | cons c t ih =>
    intro q hq hqs hqt hcon
    rw [replaceAll_cons] at hcon
    by_cases hcond : p ≠ [] ∧ p.isPrefixOf (c :: t) = true
    · rw [if_pos hcond] at hcon
      obtain ⟨qh, qt', rfl⟩ := List.exists_cons_of_ne_nil hq
      obtain ⟨rh, rt, hrdef⟩ := List.exists_cons_of_ne_nil hr
      rw [hrdef, List.cons_append] at hcon
      have hqr : qh = rh := (List.cons_prefix_cons.mp hcon).1
      have hrh : rh ∈ r := hrdef ▸ List.mem_cons_self rh rt
      exact hd rh hrh (hqr ▸ hqs qh (List.mem_cons_self qh qt'))
    · rw [if_neg hcond] at hcon
      obtain ⟨qh, qt', rfl⟩ := List.exists_cons_of_ne_nil hq
      obtain ⟨hhead, htail⟩ := List.cons_prefix_cons.mp hcon
      have hqt' : ¬ qt' <+: t := fun h =>
        hqt (List.cons_prefix_cons.mpr ⟨hhead, h⟩)
      have hne : qt' ≠ [] := by
        rintro rfl
        exact hqt' List.nil_prefix
      exact ih qt' hne (fun a ha => hqs a (List.mem_cons_of_mem qh ha)) hqt' htail

/-- Global replacement removes every occurrence of the pattern and the
replacement text cannot recreate one, as long as the replacement shares no
character with the pattern. -/
theorem replaceAll_not_infix (p r : List Char) (hp : p ≠ []) (hr : r ≠ [])
    (hd : ∀ c ∈ r, c ∉ p) : ∀ t, ¬ p <:+: replaceAll p r t := by
  have key : ∀ n t, t.length ≤ n → ¬ p <:+: replaceAll p r t := by
    intro n
    induction n with
    | zero =>
      intro t ht hcon
      have h0 : t = [] := List.eq_nil_of_length_eq_zero (Nat.le_zero.mp ht)
      rw [h0, replaceAll_nil] at hcon
      exact hp (List.infix_nil.mp hcon)
    | succ n ih =>
      intro t ht hcon
      match t with
      | [] =>
        rw [replaceAll_nil] at hcon
        exact hp (List.infix_nil.mp hcon)
      | c :: t' =>
        rw [replaceAll_cons] at hcon
        by_cases hcond : p ≠ [] ∧ p.isPrefixOf (c :: t') = true
        · rw [if_pos hcond] at hcon
          have h2 : p <:+: replaceAll p r (t'.drop (p.length - 1)) :=
            infix_append_left_elim hp r _ hd hcon
          have hlen : (t'.drop (p.length - 1)).length ≤ n := by
            simp only [List.length_cons] at ht
            simp only [List.length_drop]
            omega
          exact ih _ hlen h2
        · rw [if_neg hcond] at hcon
          rcases List.infix_cons_iff.mp hcon with hpre | hinf
          · obtain ⟨ph, pt, rfl⟩ := List.exists_cons_of_ne_nil hp
            obtain ⟨hph, hpt⟩ := List.cons_prefix_cons.mp hpre
            have hnp : ¬ (ph :: pt).isPrefixOf (c :: t') = true := fun h =>
              hcond ⟨hp, h⟩
            have hnp' : ¬ (ph :: pt) <+: c :: t' := fun h =>
              hnp (List.isPrefixOf_iff_prefix.mpr h)
            have hnpt : ¬ pt <+: t' := fun h =>
              hnp' (List.cons_prefix_cons.mpr ⟨hph, h⟩)
            have hptne : pt ≠ [] := by
              rintro rfl
              exact hnpt List.nil_prefix
            exact replaceAll_no_new_prefix (ph :: pt) r hr hd t' pt hptne
              (fun a ha => List.mem_cons_of_mem ph ha) hnpt hpt
          · have hlen : t'.length ≤ n := by
              simp only [List.length_cons] at ht
              omega
            exact ih t' hlen hinf
  intro t
  exact key t.length t le_rfl

/-! ### Lemmas about `firstIdx`, `lastIdx` and `replaceFirst`. -/

theorem firstIdx_some_prefix (p : List Char) :
    ∀ (s : List Char) (i : Nat), firstIdx p s = some i → p <+: s.drop i := by
  intro s
  induction s with
  | nil =>
    intro i h
    simp only [firstIdx] at h
    by_cases hp : p.isPrefixOf ([] : List Char)
    · rw [if_pos hp] at h
      cases h
      simpa using List.isPrefixOf_iff_prefix.mp hp
    · rw [if_neg hp] at h
      cases h
  | cons c t ih =>
    intro i h
    simp only [firstIdx] at h
    by_cases hp : p.isPrefixOf (c :: t)
    · rw [if_pos hp] at h
      cases h
      simpa using List.isPrefixOf_iff_prefix.mp hp
    · rw [if_neg hp] at h
      obtain ⟨j, hj, rfl⟩ := Option.map_eq_some'.mp h
      simpa using ih j hj

theorem replaceFirst_eq (p r : List Char) (hp : p ≠ []) :
    ∀ (s : List Char) (i : Nat), firstIdx p s = some i →
      replaceFirst p r s = s.take i ++ r ++ s.drop (i + p.length) := by
  intro s
  induction s with
  | nil =>
    intro i h
    simp only [firstIdx] at h
    have hnp : ¬ p.isPrefixOf ([] : List Char) := by
      intro hpre
      exact hp (List.prefix_nil.mp (List.isPrefixOf_iff_prefix.mp hpre))
    rw [if_neg hnp] at h
    cases h
  | cons c t ih =>
    intro i h
    simp only [firstIdx] at h
    by_cases hpre : p.isPrefixOf (c :: t)
    · rw [if_pos hpre] at h
      cases h
      simp [replaceFirst, hpre]
    · rw [if_neg hpre] at h
      obtain ⟨j, hj, rfl⟩ := Option.map_eq_some'.mp h
      have := ih j hj
      simp only [replaceFirst, hpre, if_false, Bool.false_eq_true, this]
      have h1 : List.take (j + 1) (c :: t) = c :: List.take j t := rfl
      have h2 : List.drop (j + 1 + p.length) (c :: t) = List.drop (j + p.length) t := by
        have h3 : j + 1 + p.length = (j + p.length) + 1 := by omega
        rw [h3]
        rfl
      rw [h1, h2]
      simp

theorem containsB_iff_firstIdx (p : List Char) (hp : p ≠ []) :
    ∀ s, containsB p s = true ↔ ∃ i, firstIdx p s = some i := by
  intro s
  induction s with
  | nil =>
    have h1 : containsB p [] = false := by
      simp [containsB, List.isEmpty_iff, hp]
    have h2 : ¬ p.isPrefixOf ([] : List Char) := by
      intro hpre
      exact hp (List.prefix_nil.mp (List.isPrefixOf_iff_prefix.mp hpre))
    simp [h1, firstIdx, h2]
  | cons c t ih =>
    by_cases hpre : p.isPrefixOf (c :: t)
    · simp [containsB, firstIdx, hpre]
    · simp only [containsB, firstIdx, hpre, if_false, Bool.false_eq_true,
        Bool.false_or, ih, Option.map_eq_some']
      constructor
      · rintro ⟨i, hi⟩
        exact ⟨i + 1, i, hi, rfl⟩
      · rintro ⟨i, j, hj, rfl⟩
        exact ⟨j, hj⟩

theorem containsB_lastIdx_isSome (p : List Char) (hp : p ≠ []) :
    ∀ s, containsB p s = true → ∃ i, lastIdx p s = some i := by
  intro s
  induction s with
  | nil =>
    intro h
    simp [containsB, List.isEmpty_iff, hp] at h
  | cons c t ih =>
    intro h
    simp only [lastIdx]
    rcases ht : lastIdx p t with _ | i
    · simp only [containsB, Bool.or_eq_true] at h
      rcases h with h | h
      · exact ⟨0, by rw [if_pos h]⟩
      · obtain ⟨i, hi⟩ := ih h
        rw [hi] at ht
        cases ht
    · exact ⟨i + 1, rfl⟩

theorem lastIdx_some_prefix (p : List Char) :
    ∀ (s : List Char) (i : Nat), lastIdx p s = some i → p <+: s.drop i := by
  intro s
  induction s with
  | nil => intro i h; simp [lastIdx] at h
  | cons c t ih =>
    intro i h
    simp only [lastIdx] at h
    rcases ht : lastIdx p t with _ | j
    · rw [ht] at h
      by_cases hpre : p.isPrefixOf (c :: t)
      · rw [if_pos hpre] at h
        cases h
        simpa using List.isPrefixOf_iff_prefix.mp hpre
      · rw [if_neg hpre] at h
        cases h
    · rw [ht] at h
      cases h
      simpa using ih j ht

theorem replaceFirst_not_contains (p r : List Char) :
    ∀ s, containsB p s = false → replaceFirst p r s = s := by
  intro s
  induction s with
  | nil => intro _; rfl
  | cons c t ih =>
    intro h
    simp only [containsB, Bool.or_eq_false_iff] at h
    simp [replaceFirst, h.1, ih h.2]

theorem replaceFirst_of_isPrefixOf (p r : List Char) (hp : p ≠ []) :
    ∀ s, p.isPrefixOf s = true → replaceFirst p r s = r ++ s.drop p.length := by
  intro s hs
  cases s with
  | nil =>
    exact absurd (List.prefix_nil.mp (List.isPrefixOf_iff_prefix.mp hs)) hp
  | cons c t => simp [replaceFirst, hs]

/-- `s.replace(p, ins + p)` inserts `ins` immediately before the first
occurrence of `p`. -/
theorem replaceFirst_insert_before (p ins : List Char) (hp : p ≠ [])
    (s : List Char) (i : Nat) (hi : firstIdx p s = some i) :
    replaceFirst p (ins ++ p) s = s.take i ++ ins ++ s.drop i := by
  have h1 := replaceFirst_eq p (ins ++ p) hp s i hi
  obtain ⟨v, hv⟩ := firstIdx_some_prefix p s i hi
  have h2 : s.drop (i + p.length) = v := by
    have h3 : s.drop (i + p.length) = (s.drop i).drop p.length := by
      rw [List.drop_drop]
    rw [h3, ← hv, List.drop_left]
  rw [h1, h2, ← hv]
  simp [List.append_assoc]

/-- `s.replace(p, p + ins)` inserts `ins` immediately after the first
occurrence of `p`. -/
theorem replaceFirst_insert_after (p ins : List Char) (hp : p ≠ [])
    (s : List Char) (i : Nat) (hi : firstIdx p s = some i) :
    replaceFirst p (p ++ ins) s =
      s.take (i + p.length) ++ ins ++ s.drop (i + p.length) := by
  have h1 := replaceFirst_eq p (p ++ ins) hp s i hi
  obtain ⟨v, hv⟩ := firstIdx_some_prefix p s i hi
  have h2 : s.take (i + p.length) = s.take i ++ p := by
    rw [List.take_add, ← hv, List.take_left]
  rw [h1, h2]
  simp [List.append_assoc]

/-! ### Spec-side insertion operations (spec section 4.1, rich-HTML
strategy): named after the spec's wording, for comparison with the code's
`injectCssOverride`. -/

/-- Insert `ins` immediately before the first occurrence of `pat`. -/
def insertBeforeFirst (ins pat s : List Char) : List Char :=
  match firstIdx pat s with
  | some i => s.take i ++ ins ++ s.drop i
  | none => s

/-- Insert `ins` immediately after the last occurrence of `pat`. -/
def insertAfterLast (ins pat s : List Char) : List Char :=
  match lastIdx pat s with
  | some i => s.take (i + pat.length) ++ ins ++ s.drop (i + pat.length)
  | none => s

/-- Insert `ins` immediately after the first occurrence of `pat`. -/
def insertAfterFirst (ins pat s : List Char) : List Char :=
  match firstIdx pat s with
  | some i => s.take (i + pat.length) ++ ins ++ s.drop (i + pat.length)
  | none => s

/-! ### Relating `classify` to the dispatch of `setBotMessageRef`. -/

theorem classify_eq_rich {r : Bool} {content : List Char}
    (h : classify r content = Classification.CompleteRichHTML) :
    (r && isFullHTMLDocument content && isCompleteHTMLDocument content &&
      needsIframeRendering content) = true := by
  unfold classify at h
  split_ifs at h with h1 h2 h3
  all_goals first | rfl | simp_all

theorem classify_eq_simple {r : Bool} {content : List Char}
    (h : classify r content = Classification.CompleteSimpleHTML) :
    (r && isFullHTMLDocument content && isCompleteHTMLDocument content &&
      needsIframeRendering content) = false ∧
    (r && isFullHTMLDocument content && isCompleteHTMLDocument content &&
      !needsIframeRendering content) = true := by
  unfold classify at h
  split_ifs at h with h1 h2 h3
  all_goals first | rfl | simp_all

theorem classify_eq_incomplete {r : Bool} {content : List Char}
    (h : classify r content = Classification.IncompleteHTML) :
    (r && isFullHTMLDocument content && isCompleteHTMLDocument content &&
      needsIframeRendering content) = false ∧
    (r && isFullHTMLDocument content && isCompleteHTMLDocument content &&
      !needsIframeRendering content) = false ∧
    (r && isFullHTMLDocument content && !isCompleteHTMLDocument content) = true := by
  unfold classify at h
  split_ifs at h with h1 h2 h3
  all_goals first | rfl | simp_all

theorem setBotMessageRef_rich (r : Bool) (md : List Char → List Char)
    (content : List Char)
    (h1 : (r && isFullHTMLDocument content && isCompleteHTMLDocument content &&
      needsIframeRendering content) = true) :
    setBotMessageRef r md content =
      RenderResult.iframeDoc (iframeFinalDocument content) := by
  unfold setBotMessageRef
  rw [if_pos h1]

theorem setBotMessageRef_simple (r : Bool) (md : List Char → List Char)
    (content : List Char)
    (h1 : (r && isFullHTMLDocument content && isCompleteHTMLDocument content &&
      needsIframeRendering content) = false)
    (h2 : (r && isFullHTMLDocument content && isCompleteHTMLDocument content &&
      !needsIframeRendering content) = true) :
    setBotMessageRef r md content =
      RenderResult.injectHTML (chooseBodyContent (parseHTMLDoc content) content) false := by
  unfold setBotMessageRef
  rw [if_neg (by simp [h1]), if_pos h2]
  rfl

theorem setBotMessageRef_incomplete (r : Bool) (md : List Char → List Char)
    (content : List Char)
    (h1 : (r && isFullHTMLDocument content && isCompleteHTMLDocument content &&
      needsIframeRendering content) = false)
    (h2 : (r && isFullHTMLDocument content && isCompleteHTMLDocument content &&
      !needsIframeRendering content) = false)
    (h3 : (r && isFullHTMLDocument content && !isCompleteHTMLDocument content) = true) :
    setBotMessageRef r md content =
      RenderResult.textOnly (extractTextFromIncompleteHTML content) := by
  unfold setBotMessageRef
  rw [if_neg (by simp [h1]), if_neg (by simp [h2]), if_pos h3]

/-! ## Claim C1 -/

def c1SampleA : List Char := "x<script></body></html>".toList
def c1SampleB : List Char := "<html><body><script>a</script></body></html>".toList

/-- Claim C1 as frozen is false: a content string containing `<script`,
`</body>` and `</html>` is not classified `CompleteRichHTML` for every
value of the other inputs — it is classified `PlainMarkdown` when the
string does not start with a doctype/html tag (sample A), and also when
`renderHTML` is disabled (sample B). -/
theorem c1_counterexample :
    (containsB scriptOpenTag c1SampleA = true ∧ containsB bodyCloseTag c1SampleA = true ∧
      containsB htmlCloseTag c1SampleA = true ∧
      classify true c1SampleA ≠ Classification.CompleteRichHTML) ∧
    (containsB scriptOpenTag c1SampleB = true ∧ containsB bodyCloseTag c1SampleB = true ∧
      containsB htmlCloseTag c1SampleB = true ∧
      classify false c1SampleB ≠ Classification.CompleteRichHTML) := by
  decide

/-- Claim C1 (amended): for every content string containing a script tag
and the closing `</body>` and `</html>` tags, *provided `renderHTML` is
enabled and the content is a full HTML document (its trimmed form starts
with a doctype or html tag)*, the classification is `CompleteRichHTML`. -/
theorem c1_rich_classification (content : List Char)
    (hfull : isFullHTMLDocument content = true)
    (hs : containsB scriptOpenTag content = true)
    (hb : containsB bodyCloseTag content = true)
    (hh : containsB htmlCloseTag content = true) :
    classify true content = Classification.CompleteRichHTML := by
  simp [classify, isCompleteHTMLDocument, needsIframeRendering, hfull, hs, hb, hh]

/-- Witness for `c1_rich_classification` at a concrete full document. -/
theorem c1_witness :
    isFullHTMLDocument c1SampleB = true ∧ containsB scriptOpenTag c1SampleB = true ∧
    containsB bodyCloseTag c1SampleB = true ∧ containsB htmlCloseTag c1SampleB = true ∧
    classify true c1SampleB = Classification.CompleteRichHTML :=
  ⟨by decide, by decide, by decide, by decide,
    c1_rich_classification c1SampleB (by decide) (by decide) (by decide) (by decide)⟩

/-! ## Claim C2 -/

/-- Claim C2: for every content string that does not start (after
trimming) with a doctype or html tag — i.e. `isFullHTMLDocument` is false —
the classification is `PlainMarkdown` regardless of any other markers and
of the `renderHTML` flag. -/
theorem c2_plain_markdown_classification (r : Bool) (content : List Char)
    (h : isFullHTMLDocument content = false) :
    classify r content = Classification.PlainMarkdown := by
  simp [classify, h]

def c2Sample : List Char := "hello <script></body></html>".toList

/-- Witness for `c2_plain_markdown_classification`: a string full of HTML
markers that does not start with a doctype/html tag. -/
theorem c2_witness :
    isFullHTMLDocument c2Sample = false ∧
    classify true c2Sample = Classification.PlainMarkdown :=
  ⟨by decide, c2_plain_markdown_classification true c2Sample (by decide)⟩

/-! ## Claim C3 -/

def c3HostSample : List Char := "h".toList
def c3FlowSample : List Char := "f".toList
def c3ChatSample : List Char := "c".toList
def c3NonPrefixedData : List Char := "https://x/y.png".toList
def c3PrefixedData : List Char := "FILE-STORAGE::img.png".toList

/-- Claim C3 as frozen is false: in `AgentReasoningBubble`, an image
artifact whose data does *not* start with `FILE-STORAGE::` is not passed
through unchanged — it is still wrapped into the download URL. -/
theorem c3_counterexample :
    fileStorageMarker.isPrefixOf c3NonPrefixedData = false ∧
    agentReasoningImageData c3HostSample c3FlowSample c3ChatSample c3NonPrefixedData ≠
      c3NonPrefixedData := by
  decide

/-- Claim C3 (amended): in `BotBubble`, prefixed image data is rewritten to
the download URL containing the chatflow id, chat id and the stripped
filename, and non-prefixed data is passed through unchanged; in
`AgentReasoningBubble`, *every* image artifact is rewritten into the
download URL (stripping the marker when present, embedding the data
verbatim otherwise). -/
theorem c3_artifact_url_rewrite (host flow chat imgData : List Char) :
    (fileStorageMarker.isPrefixOf imgData = true →
      botBubbleImageSrc host flow chat imgData =
        host ++ uploadPathSeg ++ flow ++ chatIdSeg ++ chat ++ fileNameSeg ++
          imgData.drop fileStorageMarker.length) ∧
    (fileStorageMarker.isPrefixOf imgData = false →
      botBubbleImageSrc host flow chat imgData = imgData) ∧
    (fileStorageMarker.isPrefixOf imgData = true →
      agentReasoningImageData host flow chat imgData =
        host ++ uploadPathSeg ++ flow ++ chatIdSeg ++ chat ++ fileNameSeg ++
          imgData.drop fileStorageMarker.length) ∧
    (containsB fileStorageMarker imgData = false →
      agentReasoningImageData host flow chat imgData =
        host ++ uploadPathSeg ++ flow ++ chatIdSeg ++ chat ++ fileNameSeg ++ imgData) := by
  refine ⟨?_, ?_, ?_, ?_⟩
  · intro h
    unfold botBubbleImageSrc
    rw [if_pos h, replaceFirst_of_isPrefixOf _ _ (by decide) _ h]
    simp
  · intro h
    unfold botBubbleImageSrc
    rw [if_neg (by simp [h])]
  · intro h
    unfold agentReasoningImageData
    rw [replaceFirst_of_isPrefixOf _ _ (by decide) _ h]
    simp
  · intro h
    unfold agentReasoningImageData
    rw [replaceFirst_not_contains _ _ _ h]

/-- Witness for `c3_artifact_url_rewrite` at concrete prefixed and
non-prefixed image data. -/
theorem c3_witness :
    botBubbleImageSrc c3HostSample c3FlowSample c3ChatSample c3PrefixedData =
      c3HostSample ++ uploadPathSeg ++ c3FlowSample ++ chatIdSeg ++ c3ChatSample ++
        fileNameSeg ++ c3PrefixedData.drop fileStorageMarker.length ∧
    botBubbleImageSrc c3HostSample c3FlowSample c3ChatSample c3NonPrefixedData =
      c3NonPrefixedData ∧
    agentReasoningImageData c3HostSample c3FlowSample c3ChatSample c3PrefixedData =
      c3HostSample ++ uploadPathSeg ++ c3FlowSample ++ chatIdSeg ++ c3ChatSample ++
        fileNameSeg ++ c3PrefixedData.drop fileStorageMarker.length ∧
    agentReasoningImageData c3HostSample c3FlowSample c3ChatSample c3NonPrefixedData =
      c3HostSample ++ uploadPathSeg ++ c3FlowSample ++ chatIdSeg ++ c3ChatSample ++
        fileNameSeg ++ c3NonPrefixedData :=
  ⟨(c3_artifact_url_rewrite c3HostSample c3FlowSample c3ChatSample c3PrefixedData).1
      (by decide),
   (c3_artifact_url_rewrite c3HostSample c3FlowSample c3ChatSample c3NonPrefixedData).2.1
      (by decide),
   (c3_artifact_url_rewrite c3HostSample c3FlowSample c3ChatSample c3PrefixedData).2.2.1
      (by decide),
   (c3_artifact_url_rewrite c3HostSample c3FlowSample c3ChatSample c3NonPrefixedData).2.2.2
      (by decide)⟩

/-! ## Claim C6 -/

/-- Claim C6: once the feedback rating is `THUMBS_UP` or `THUMBS_DOWN`,
every further thumbs-up or thumbs-down click (successful or not) leaves
the state unchanged: the rating can leave the empty state at most once.
Stated over every such state, which covers every reachable one. -/
theorem c6_rating_idempotent (s : FeedbackState) (e : FeedbackEvent)
    (h : s.rating = thumbsUpRating ∨ s.rating = thumbsDownRating) :
    feedbackStep s e = s := by
  have hne : s.rating.isEmpty = false := by
    rcases h with h | h
    · simp [h, thumbsUpRating]
    · simp [h, thumbsDownRating]
  cases e with
  | thumbsUp ok id => simp [feedbackStep, onThumbsUpClick, hne]
  | thumbsDown ok id => simp [feedbackStep, onThumbsDownClick, hne]

def c6RatedState : FeedbackState :=
  ⟨thumbsUpRating, [], false, "#3B81F6".toList, "#3B81F6".toList⟩

/-- Witness for `c6_rating_idempotent`: a rated state absorbs a further
successful thumbs-down click. -/
theorem c6_witness :
    (c6RatedState.rating = thumbsUpRating ∨ c6RatedState.rating = thumbsDownRating) ∧
    feedbackStep c6RatedState (FeedbackEvent.thumbsDown true ("id1".toList)) = c6RatedState :=
  ⟨Or.inl rfl, c6_rating_idempotent c6RatedState _ (Or.inl rfl)⟩

/-! ## Claim C7 -/

/-- Claim C7: the code's CSS insertion (`injectCssOverride`) follows
exactly the spec's priority order — immediately before the first `</head>`
if present; else immediately after the last `</style>` if present; else
immediately after the first `<head>` if present; else prepended. -/
theorem c7_css_insertion_priority (content : List Char) :
    injectCssOverride content =
      if containsB headCloseTag content = true then
        insertBeforeFirst cssOverride headCloseTag content
      else if containsB styleCloseTag content = true then
        insertAfterLast cssOverride styleCloseTag content
      else if containsB headOpenTag content = true then
        insertAfterFirst cssOverride headOpenTag content
      else cssOverride ++ content := by
  unfold injectCssOverride
  by_cases h1 : containsB headCloseTag content = true
  · rw [if_pos h1, if_pos h1]
    obtain ⟨i, hi⟩ := (containsB_iff_firstIdx headCloseTag (by decide) content).mp h1
    rw [replaceFirst_insert_before headCloseTag cssOverride (by decide) content i hi]
    unfold insertBeforeFirst
    rw [hi]
  · rw [if_neg h1, if_neg h1]
    by_cases h2 : containsB styleCloseTag content = true
    · rw [if_pos h2, if_pos h2]
      obtain ⟨i, hi⟩ := containsB_lastIdx_isSome styleCloseTag (by decide) content h2
      have hlen : styleCloseTag.length = 8 := by decide
      unfold insertAfterLast
      rw [hi, hlen]
    · rw [if_neg h2, if_neg h2]
      by_cases h3 : containsB headOpenTag content = true
      · rw [if_pos h3, if_pos h3]
        obtain ⟨i, hi⟩ := (containsB_iff_firstIdx headOpenTag (by decide) content).mp h3
        rw [replaceFirst_insert_after headOpenTag cssOverride (by decide) content i hi]
        unfold insertAfterFirst
        rw [hi]
      · rw [if_neg h3, if_neg h3]

/-! ## Claim C5 -/

/-- Claim C5: for content rendered via the `CompleteRichHTML` (iframe)
strategy, the final document written into the iframe never contains the
`GOOGLE_MAP_KEY` placeholder: every occurrence is replaced by the literal
key, and the replacement text cannot recreate the token. -/
theorem c5_map_key_replaced (md : List Char → List Char) (content : List Char)
    (h : classify true content = Classification.CompleteRichHTML) :
    setBotMessageRef true md content =
      RenderResult.iframeDoc (iframeFinalDocument content) ∧
    containsB googleMapKeyToken (iframeFinalDocument content) = false := by
  refine ⟨setBotMessageRef_rich true md content (classify_eq_rich h), ?_⟩
  unfold iframeFinalDocument
  by_cases hc : containsB googleMapKeyToken (injectCssOverride content) = true
  · rw [if_pos hc]
    have hni : ¬ googleMapKeyToken <:+:
        replaceAll googleMapKeyToken mapKeyLiteral (injectCssOverride content) :=
      replaceAll_not_infix googleMapKeyToken mapKeyLiteral (by decide) (by decide)
        (by decide) (injectCssOverride content)
    have hne : containsB googleMapKeyToken
        (replaceAll googleMapKeyToken mapKeyLiteral (injectCssOverride content)) ≠ true :=
      fun hEq => hni ((containsB_iff googleMapKeyToken _).mp hEq)
    exact Bool.eq_false_iff.mpr hne
  · rw [if_neg hc]
    exact Bool.eq_false_iff.mpr hc

def richDocSample : List Char :=
  "<html><head><title>t</title></head><body><script>var k = GOOGLE_MAP_KEY;</script></body></html>".toList

/-- Witness for `c5_map_key_replaced` at a concrete rich document holding
the placeholder. -/
theorem c5_witness :
    setBotMessageRef true (fun l => l) richDocSample =
      RenderResult.iframeDoc (iframeFinalDocument richDocSample) ∧
    containsB googleMapKeyToken (iframeFinalDocument richDocSample) = false :=
  c5_map_key_replaced (fun l => l) richDocSample (by decide)

/-! ## Claim C4 -/

def c4Sample : List Char := "<html><body><<p>script>".toList

/-- Claim C4 fails as stated: this content is classified `IncompleteHTML`,
yet the visible output does contain a literal `<script>` substring — HTML
tokenization leaves a stray `<` (one not followed by a tag-starting
character) as text, and it joins with the text after a removed tag. -/
theorem c4_counterexample :
    classify true c4Sample = Classification.IncompleteHTML ∧
    containsB ("<script>".toList) (extractTextFromIncompleteHTML c4Sample) = true := by
  decide

/-- Claim C4 (amended): for content classified `IncompleteHTML`, the
visible output is exactly the trimmed extracted text suffixed with the
loading glyph when that text is non-empty, and exactly the generic loading
placeholder otherwise; the guarantee that the output never contains a
literal `<script>` or `<html` substring does not hold (the text is
nevertheless injected inertly via `textContent`). -/
theorem c4_incomplete_html_rendering (md : List Char → List Char) (content : List Char)
    (h : classify true content = Classification.IncompleteHTML) :
    (setBotMessageRef true md content =
        RenderResult.textOnly (trimList (domTextContent content) ++ loadingGlyphSuffix) ∧
      0 < (trimList (domTextContent content)).length) ∨
    (setBotMessageRef true md content = RenderResult.textOnly loadingPlaceholder ∧
      (trimList (domTextContent content)).length = 0) := by
  obtain ⟨h1, h2, h3⟩ := classify_eq_incomplete h
  have hb := setBotMessageRef_incomplete true md content h1 h2 h3
  by_cases ht : 0 < (trimList (domTextContent content)).length
  · left
    refine ⟨?_, ht⟩
    rw [hb]
    unfold extractTextFromIncompleteHTML
    rw [if_pos ht]
  · right
    refine ⟨?_, by omega⟩
    rw [hb]
    unfold extractTextFromIncompleteHTML
    rw [if_neg ht]

def c4StreamSample : List Char := "<html><body>Hello".toList

/-- Witness for `c4_incomplete_html_rendering` at a concrete streaming
fragment. -/
theorem c4_witness :
    (setBotMessageRef true (fun l => l) c4StreamSample =
        RenderResult.textOnly (trimList (domTextContent c4StreamSample) ++ loadingGlyphSuffix) ∧
      0 < (trimList (domTextContent c4StreamSample)).length) ∨
    (setBotMessageRef true (fun l => l) c4StreamSample =
        RenderResult.textOnly loadingPlaceholder ∧
      (trimList (domTextContent c4StreamSample)).length = 0) :=
  c4_incomplete_html_rendering (fun l => l) c4StreamSample (by decide)

/-! ## Claim C8 -/

def simpleDocSample : List Char := "<html><body><p>hi</p></body></html>".toList
def simpleDocBody : List Char := "<p>hi</p>".toList

/-- Claim C8: the sample document takes the `CompleteSimpleHTML` path and
injects exactly the body inner content `<p>hi</p>` (the link/colour
decoration then runs over the injected nodes), with no outer `<html` or
`<body` tag in the output. -/
theorem c8_simple_html_roundtrip (md : List Char → List Char) :
    classify true simpleDocSample = Classification.CompleteSimpleHTML ∧
    setBotMessageRef true md simpleDocSample =
      RenderResult.injectHTML simpleDocBody false ∧
    containsB htmlOpenTag simpleDocBody = false ∧
    containsB bodyOpenTagStart simpleDocBody = false := by
  refine ⟨by decide, ?_, by decide, by decide⟩
  have hb := setBotMessageRef_simple true md simpleDocSample (by decide) (by decide)
  rw [hb]
  decide

/-! ## Claim C9 -/

/-- Claim C9: on the `CompleteSimpleHTML` path, a parse failure makes the
renderer fall back to parsing the original content as markdown with the
warning logged, and the render function is total — whenever the warning
was logged, the injected output is the markdown rendering of the original
content. -/
theorem c9_parse_failure_fallback (md : List Char → List Char) (content : List Char) :
    simpleHTMLRender md content (Except.error ()) = (md content, true) ∧
    ∀ outcome : Except Unit HTMLDoc,
      (simpleHTMLRender md content outcome).2 = true →
      (simpleHTMLRender md content outcome).1 = md content := by
  refine ⟨rfl, ?_⟩
  intro outcome h
  cases outcome with
  | ok doc => simp [simpleHTMLRender] at h
  | error e => rfl

def c9Sample : List Char := "<html><body".toList

/-- Witness for `c9_parse_failure_fallback` at a concrete content and the
failing parse outcome. -/
theorem c9_witness :
    simpleHTMLRender (fun l => l) c9Sample (Except.error ()) = (c9Sample, true) ∧
    (simpleHTMLRender (fun l => l) c9Sample (Except.error ())).1 = c9Sample :=
  ⟨(c9_parse_failure_fallback (fun l => l) c9Sample).1,
   (c9_parse_failure_fallback (fun l => l) c9Sample).2 (Except.error ()) rfl⟩

/-! ## Claim C10 -/

/-- Claim C10: on the `CompleteSimpleHTML` path, when the parsed body is
absent or its inner HTML is empty, the renderer injects the entire
original document string verbatim (`doc.body?.innerHTML ||
messageContent`); body-only extraction happens exactly when the parsed
body inner HTML is non-empty. -/
theorem c10_empty_body_verbatim (md : List Char → List Char) (content : List Char)
    (h : classify true content = Classification.CompleteSimpleHTML) :
    ((bodyInnerHTML content = none ∨ bodyInnerHTML content = some []) →
      setBotMessageRef true md content = RenderResult.injectHTML content false) ∧
    (∀ inner, bodyInnerHTML content = some inner → inner ≠ [] →
      setBotMessageRef true md content = RenderResult.injectHTML inner false) := by
  obtain ⟨h1, h2⟩ := classify_eq_simple h
  have hb := setBotMessageRef_simple true md content h1 h2
  constructor
  · intro hcase
    rw [hb]
    unfold chooseBodyContent parseHTMLDoc
    rcases hcase with hc | hc
    · simp [hc]
    · simp [hc]
  · intro inner hinner hne
    rw [hb]
    unfold chooseBodyContent parseHTMLDoc
    simp [hinner, List.isEmpty_iff, hne]

def emptyBodyDocSample : List Char := "<html><body></body></html>".toList
def c10FilledDocSample : List Char := "<html><body><p>a</p></body></html>".toList
def c10FilledBody : List Char := "<p>a</p>".toList

/-- Witness for `c10_empty_body_verbatim` at a concrete empty-body
document and a concrete non-empty-body document. -/
theorem c10_witness :
    setBotMessageRef true (fun l => l) emptyBodyDocSample =
      RenderResult.injectHTML emptyBodyDocSample false ∧
    setBotMessageRef true (fun l => l) c10FilledDocSample =
      RenderResult.injectHTML c10FilledBody false :=
  ⟨(c10_empty_body_verbatim (fun l => l) emptyBodyDocSample (by decide)).1
      (Or.inr (by decide)),
   (c10_empty_body_verbatim (fun l => l) c10FilledDocSample (by decide)).2
      c10FilledBody (by decide) (by decide)⟩

end FlowiseEmbed
